import Mathlib

/-!
Verification model of the VLR match-details extraction engine.

The definitions below are a shallow embedding of the parsing code in
`match_details_scrapper.py` (class `MatchDetailsScraper`) and of the
stat-value normalizer `_clean_stat_value` in `detailed_match_scraper.py`.
A markup document is modelled as a tree of `Node`s; the BeautifulSoup
operations used by the code (`find`, `find_all`, `get_text(strip=True)`,
attribute access, class matching, the CSS `select` calls) are modelled
faithfully, and every scraper method becomes a Lean function over `Node`.
Python statements that can raise are modelled with `Except String`.
All string primitives are implemented over `List Char` by structural
recursion so that every definition evaluates inside the kernel.
-/

/-! ### Python string primitives -/

def trimL (l : List Char) : List Char :=
  (((l.dropWhile Char.isWhitespace).reverse).dropWhile Char.isWhitespace).reverse

/-- Python `str.strip()` (whitespace only). -/
def pyStrip (s : String) : String := String.mk (trimL s.data)

/-- Python `len(s)`. -/
def pyLen (s : String) : Nat := s.data.length

/-- Python `c in s` for a single character. -/
def hasChar (s : String) (c : Char) : Bool := s.data.contains c

def natOfDigits? (l : List Char) : Option Nat :=
  if !l.isEmpty && l.all Char.isDigit then
    some (l.foldl (fun a c => a * 10 + (c.toNat - 48)) 0)
  else none

/-- Python `int(s)`: optional surrounding whitespace, optional sign, a
nonempty run of decimal digits; `none` models a raised `ValueError`. -/
def pyInt? (s : String) : Option Int :=
  let t := trimL s.data
  match t with
  | '-' :: core => (natOfDigits? core).map (fun n => -(n : Int))
  | '+' :: core => (natOfDigits? core).map (fun n => (n : Int))
  | core => (natOfDigits? core).map (fun n => (n : Int))

/-- Split helper `splitOnFuel sep fuel s`: split `s` at each non-overlapping occurrence
of the nonempty separator `sep`, scanning left to right; `fuel` bounds the
recursion and `s.length` is always sufficient. -/
def splitOnFuel (sep : List Char) : Nat → List Char → List (List Char)
  | _, [] => [[]]
  | 0, l => [l]
  | fuel + 1, c :: rest =>
    if sep.isPrefixOf (c :: rest) then
      [] :: splitOnFuel sep fuel ((c :: rest).drop sep.length)
    else
      match splitOnFuel sep fuel rest with
      | [] => [[c]]
      | g :: gs => (c :: g) :: gs

/-- Python `s.split(sep)` for a nonempty separator. -/
def pySplit (s sep : String) : List String :=
  (splitOnFuel sep.data s.data.length s.data).map String.mk

/-- Python `pat in s` (substring test) for a nonempty pattern. -/
def strContains (s pat : String) : Bool := (pySplit s pat).length != 1

/-- Python `s.replace(pat, repl)` for a nonempty pattern. -/
def pyReplace (s pat repl : String) : String :=
  String.mk (List.intercalate repl.data ((splitOnFuel pat.data s.data.length s.data)))

/-- Python `s.lower()` restricted to ASCII case mapping. -/
def pyLower (s : String) : String := String.mk (s.data.map Char.toLower)

def digitsToNat (s : String) : Nat :=
  s.data.foldl (fun a c => a * 10 + (c.toNat - 48)) 0

/-- An exact (not necessarily reduced) fraction, standing in for a Python
float value; all arithmetic performed on parsed stat values is exact, so
the embedding keeps the exact quotient. -/
structure Frac where
  num : Int
  den : Nat
deriving DecidableEq, Repr

/-- Division of a fraction by a natural number (used for `value / 100`). -/
def Frac.divNat (q : Frac) (n : Nat) : Frac := ⟨q.num, q.den * n⟩

/-- Python `float(s)` restricted to plain decimal literals, returned as an
exact fraction; `none` models a raised `ValueError`. -/
def pyFloat? (s : String) : Option Frac :=
  let t := trimL s.data
  let neg := t.head? == some '-'
  let core := match t with
    | '-' :: r => r
    | '+' :: r => r
    | r => r
  let mk : Int → Nat → Option Frac := fun n d => some ⟨if neg then -n else n, d⟩
  match splitOnFuel ['.'] core.length core with
  | [w] => (natOfDigits? w).bind (fun n => mk (n : Int) 1)
  | [w, f] =>
    if w.isEmpty && f.isEmpty then none
    else if w.all Char.isDigit && f.all Char.isDigit then
      mk ((digitsToNat (String.mk w) * 10 ^ f.length + digitsToNat (String.mk f) : Nat) : Int) (10 ^ f.length)
    else none
  | _ => none

/-- Python `str.title()`: upper-case every alphabetic character that does
not follow an alphabetic character, lower-case the other alphabetic
characters. -/
def pyTitle (s : String) : String :=
  String.mk ((s.data.foldl
    (fun (acc : List Char × Bool) c =>
      let c2 := if c.isAlpha then (if acc.2 then c.toLower else c.toUpper) else c
      (acc.1 ++ [c2], c.isAlpha)) ([], false)).1)

/-- Core of `re.sub(r"\s+", " ", s)`: collapse every whitespace run to a
single space. -/
def collapseWs (s : String) : String :=
  String.mk ((s.data.foldl
    (fun (acc : List Char × Bool) c =>
      if c.isWhitespace then (if acc.2 then acc else (acc.1 ++ [' '], true))
      else (acc.1 ++ [c], false)) ([], false)).1)

/-- Character-list regex search: match, at one start position, the literal
`pre` followed by a nonempty digit run followed by a slash, returning the
digits (the capture group of patterns such as `/(\d+)/`). -/
def matchPreNum (pre : List Char) (s : List Char) : Option String :=
  if pre.isPrefixOf s then
    let after := s.drop pre.length
    let ds := after.takeWhile Char.isDigit
    if ds.isEmpty then none
    else match (after.drop ds.length).head? with
      | some c => if c == '/' then some (String.mk ds) else none
      | none => none
  else none

/-- Model of `re.search` for the patterns `pre(\d+)/`: try every start position,
leftmost first. -/
def searchPreNum (pre : List Char) : List Char → Option String
  | [] => none
  | c :: rest =>
    match matchPreNum pre (c :: rest) with
    | some r => some r
    | none => searchPreNum pre rest

instance {ε α : Type} [DecidableEq ε] [DecidableEq α] : DecidableEq (Except ε α) := fun a b =>
  match a, b with
  | .error e, .error f => if h : e = f then .isTrue (by subst h; rfl) else .isFalse (by simp [h])
  | .error _, .ok _ => .isFalse (by simp)
  | .ok _, .error _ => .isFalse (by simp)
  | .ok x, .ok y => if h : x = y then .isTrue (by subst h; rfl) else .isFalse (by simp [h])

/-! ### Markup document model -/

/-- A markup node: either a text fragment or an element with a tag name,
a list of CSS classes (the split `class` attribute), the remaining
attributes, and child nodes in document order. -/
inductive Node where
  | text (s : String) : Node
  | elem (tag : String) (classes : List String) (attrs : List (String × String)) (children : List Node) : Node

mutual
def nodeDecEq : (a b : Node) → Decidable (a = b)
  | .text s, .text t =>
    if h : s = t then .isTrue (by rw [h]) else .isFalse (by simp [h])
  | .text _, .elem _ _ _ _ => .isFalse (by simp)
  | .elem _ _ _ _, .text _ => .isFalse (by simp)
  | .elem t1 c1 a1 ch1, .elem t2 c2 a2 ch2 =>
    if h1 : t1 = t2 then
      if h2 : c1 = c2 then
        if h3 : a1 = a2 then
          match nodeListDecEq ch1 ch2 with
          | .isTrue h4 => .isTrue (by rw [h1, h2, h3, h4])
          | .isFalse h4 => .isFalse (by simp [h4])
        else .isFalse (by simp [h3])
      else .isFalse (by simp [h2])
    else .isFalse (by simp [h1])
def nodeListDecEq : (l1 l2 : List Node) → Decidable (l1 = l2)
  | [], [] => .isTrue rfl
  | [], _ :: _ => .isFalse (by simp)
  | _ :: _, [] => .isFalse (by simp)
  | a :: l1, b :: l2 =>
    match nodeDecEq a b, nodeListDecEq l1 l2 with
    | .isTrue h1, .isTrue h2 => .isTrue (by rw [h1, h2])
    | .isFalse h1, _ => .isFalse (by simp [h1])
    | _, .isFalse h2 => .isFalse (by simp [h2])
end

instance : DecidableEq Node := nodeDecEq

namespace Node

def childNodes : Node → List Node
  | .text _ => []
  | .elem _ _ _ cs => cs

def tagName : Node → Option String
  | .text _ => none
  | .elem t _ _ _ => some t

def classList : Node → List String
  | .text _ => []
  | .elem _ cls _ _ => cls

def attr : Node → String → Option String
  | .text _, _ => none
  | .elem _ _ attrs _, k => (attrs.find? (fun a => a.1 == k)).map (fun a => a.2)

def hasAttr (n : Node) (k : String) : Bool := (n.attr k).isSome

end Node

-- All descendants of a node in pre-order (document order), excluding the
-- node itself; this is the search space of BeautifulSoup find / find_all.
mutual
def descendants : Node → List Node
  | .text _ => []
  | .elem _ _ _ cs => descendantsL cs
def descendantsL : List Node → List Node
  | [] => []
  | c :: rest => c :: (descendants c ++ descendantsL rest)
end

-- Model of get_text(strip=True): the concatenation of all descendant text
-- fragments, each stripped of surrounding whitespace.
mutual
def getTextS : Node → String
  | .text s => pyStrip s
  | .elem _ _ _ cs => getTextSL cs
def getTextSL : List Node → String
  | [] => ""
  | c :: rest => getTextS c ++ getTextSL rest
end

/-- BeautifulSoup `find_all` with an arbitrary predicate: all matching
descendants in document order. -/
def findAll (p : Node → Bool) (n : Node) : List Node := (descendants n).filter p

/-- BeautifulSoup `find`: the first matching descendant, if any. -/
def findNode (p : Node → Bool) (n : Node) : Option Node := (findAll p n).head?

def isTagB (t : String) (n : Node) : Bool := n.tagName == some t

/-- BeautifulSoup `class_="c"` matching: the string matches one of the
element classes, or (for multi-class query strings) the entire class
attribute value, i.e. the space-joined class list. -/
def matchesClass (c : String) (n : Node) : Bool :=
  n.classList.contains c || String.mk (List.intercalate [' '] (n.classList.map String.data)) == c

/-- Model of `soup.find(tag, class_=c)` for an exact tag name and class string. -/
def findTagClass (t c : String) (n : Node) : Option Node :=
  findNode (fun d => isTagB t d && matchesClass c d) n

/-! ### `_safe_get_text` and the side-stat disaggregator
(`_parse_player_row_stats`, stats part) -/

/-- Model of `_safe_get_text(element, default)`. -/
def safe_get_text (e : Option Node) (dflt : String) : String :=
  match e with
  | some n => getTextS n
  | none => dflt

def findSpanCls (c : String) (n : Node) : Option Node := findTagClass "span" c n

/-- The retry condition between combined-value strategies: the previous
strategy produced nothing. -/
def needMore (v : String) : Bool := v == "N/A" || v == ""

/-- Combined-value strategy (a): a `span` with the exact class string
`side mod-side mod-both`. -/
def allSidesA (cell : Node) : String :=
  match findSpanCls "side mod-side mod-both" cell with
  | some sp => getTextS sp
  | none => "N/A"

/-- Combined-value strategies (a)-(b): fall back to a `span` with class
`mod-both`. -/
def allSidesB (cell : Node) : String :=
  let v := allSidesA cell
  if needMore v then
    match findSpanCls "mod-both" cell with
    | some sp => getTextS sp
    | none => v
  else v

/-- Combined-value strategies (a)-(c): fall back to a `span` with class
`stats-sq`, guarded by that span containing no `mod-t`/`mod-ct` span. -/
def allSidesC (cell : Node) : String :=
  let v := allSidesB cell
  if needMore v then
    match findSpanCls "stats-sq" cell with
    | some sq =>
      if (findSpanCls "mod-t" sq).isNone && (findSpanCls "mod-ct" sq).isNone then getTextS sq
      else v
    | none => v
  else v

/-- Combined-value strategies (a)-(d): fall back to the direct text of the
cell, guarded by the cell containing no `mod-t`/`mod-ct` span. -/
def allSidesD (cell : Node) : String :=
  let v := allSidesC cell
  if needMore v then
    if (findSpanCls "mod-t" cell).isNone && (findSpanCls "mod-ct" cell).isNone then getTextS cell
    else v
  else v

/-- Extraction of `stats_all_sides` for one cell (lines 113-138). -/
def extract_all_sides (cell : Node) : String :=
  let v := allSidesD cell
  if v == "" then "N/A" else v

/-- Extraction of `stats_attack` for one cell (lines 140-145). -/
def extract_attack (cell : Node) : String :=
  let sp := match findSpanCls "side mod-side mod-t" cell with
            | some s => some s
            | none => findSpanCls "mod-t" cell
  let v := match sp with
           | some s => getTextS s
           | none => "N/A"
  if v == "" then "N/A" else v

/-- Extraction of `stats_defense` for one cell (lines 147-152). -/
def extract_defense (cell : Node) : String :=
  let sp := match findSpanCls "side mod-side mod-ct" cell with
            | some s => some s
            | none => findSpanCls "mod-ct" cell
  let v := match sp with
           | some s => getTextS s
           | none => "N/A"
  if v == "" then "N/A" else v

/-- Strategy (c) with its split guard removed: the text of the first
`stats-sq` span, unconditionally. -/
def chainC (cell : Node) : String :=
  let v := allSidesB cell
  if needMore v then
    match findSpanCls "stats-sq" cell with
    | some sq => getTextS sq
    | none => v
  else v

/-- Strategy (d) with its split guard removed: the direct text of the
cell, unconditionally. -/
def chainD (cell : Node) : String :=
  let v := chainC cell
  if needMore v then getTextS cell else v

/-- The combined-value strategy chain with the split guards of strategies
(c) and (d) removed: first (a), then (b), then the text of the first
`stats-sq` span, then the text of the cell itself. On cells with no
side markers this is what the guarded chain computes. -/
def combinedChain (cell : Node) : String :=
  let v := chainD cell
  if v == "" then "N/A" else v

/-! ### The stats loop (`_parse_player_row_stats`, lines 101-156) -/

def stat_keys : List String :=
  ["rating", "acs", "k", "d", "a", "kd_diff", "kast", "adr", "hs_percent", "fk", "fd", "fk_fd_diff"]

/-- Value written for one stat key: read from the cell at `idx` when the
row has one, else the sentinel. -/
def statCellValue (cells : List Node) (idx : Nat) (f : Node → String) : String :=
  match cells.get? idx with
  | some c => f c
  | none => "N/A"

def statsMapAux (cells : List Node) (f : Node → String) : Nat → List String → List (String × String)
  | _, [] => []
  | idx, k :: ks => (k, statCellValue cells idx f) :: statsMapAux cells f (idx + 1) ks

/-- One of the three per-row stat maps, in `stat_keys` order, reading key
`i` from the cell at `start + i`. -/
def statsMap (cells : List Node) (start : Nat) (f : Node → String) : List (String × String) :=
  statsMapAux cells f start stat_keys

/-! ### Agent resolution (`_parse_player_row_stats`, lines 47-98) -/

/-- Per-map style icon lookup: an `img` inside a `span.mod-agent`, else an
`img.mod-agent`, else any `img` whose source path is in the agent icon
directory. -/
def findAgentImg (cell : Node) : Option Node :=
  let p1 := match findSpanCls "mod-agent" cell with
            | some sp => findNode (isTagB "img") sp
            | none => none
  match p1 with
  | some i => some i
  | none =>
    match findNode (fun d => isTagB "img" d && matchesClass "mod-agent" d) cell with
    | some i => some i
    | none =>
      (findAll (isTagB "img") cell).find?
        (fun im => strContains ((im.attr "src").getD "") "/img/vlr/game/agents/")

/-- The alt/title candidate of an icon: alt text, else title text, then
stripped. -/
def agentCandidate (img : Node) : String :=
  let c0 := (img.attr "alt").getD ""
  let c1 := if c0 == "" then (img.attr "title").getD "" else c0
  pyStrip c1

/-- The name derived from an image source path: the text after the last
`/agents/`, cut at the first dot, dashes replaced by spaces
(`img_src.split('/agents/')[-1].split('.')[0].replace('-', ' ')`). -/
def srcDerived (src : String) : String :=
  pyReplace ((pySplit ((pySplit src "/agents/").getLastD "") ".").headD "") "-" " "

/-- Resolution of an icon to an agent display name (lines 84-97). -/
def agentFromImg (img : Node) : String :=
  let cand := agentCandidate img
  if cand != "" && pyLen cand < 20 && !(hasChar cand '/') then cand
  else
    let src := (img.attr "src").getD ""
    if strContains src "/img/vlr/game/agents/" then
      let extracted := srcDerived src
      if extracted != "" && pyLen extracted < 20 then pyTitle extracted else "N/A"
    else "N/A"

def agentPerMapCell (cell : Node) : String :=
  match findAgentImg cell with
  | some im => agentFromImg im
  | none => "N/A"

def agentsPerMapCell (cell : Node) : List String :=
  let a := agentPerMapCell cell
  if a != "N/A" then [a] else []

/-- Overview-style agent list from the dedicated agent cell
(lines 48-57). -/
def overviewAgents (cell : Node) : List String :=
  let spans := findAll (fun d => isTagB "span" d && matchesClass "mod-agent" d) cell
  let imgs := spans.filterMap (fun sp => findNode (isTagB "img") sp)
  let alts := imgs.filterMap (fun im => im.attr "alt")
  if !alts.isEmpty then alts else imgs.filterMap (fun im => im.attr "title")

/-! ### The player row parser (`_parse_player_row_stats`) -/

structure PlayerData where
  team_name : String
  player_id : Option String
  player_name : String
  agent : String
  agents : List String
  stats_all_sides : List (String × String)
  stats_attack : List (String × String)
  stats_defense : List (String × String)
deriving DecidableEq, Repr, Inhabited

def tds (row : Node) : List Node := findAll (isTagB "td") row

def playerIdOf (nameTag : Option Node) : Option String :=
  match nameTag with
  | some a =>
    if a.hasAttr "href" then searchPreNum "/player/".toList ((a.attr "href").getD "").toList
    else none
  | none => none

/-- Model of `_parse_player_row_stats`: a `.error` result models a raised
`IndexError` (empty row, or overview-style row without a second cell). -/
def parse_player_row_stats (row : Node) (is_overview_style : Bool) (team_name : String) :
    Except String PlayerData :=
  match tds row with
  | [] => .error "IndexError: list index out of range"
  | c0 :: rest =>
    let cells := c0 :: rest
    let nameTag := findNode (isTagB "a") c0
    let pid := playerIdOf nameTag
    let textOf := match nameTag with
      | some a => findNode (fun d => isTagB "div" d && matchesClass "text-of" d) a
      | none => none
    let pname := safe_get_text textOf (getTextS c0)
    if is_overview_style then
      match rest with
      | [] => .error "IndexError: list index out of range"
      | c1 :: _ =>
        let ags := overviewAgents c1
        .ok { team_name := team_name, player_id := pid, player_name := pname,
              agent := ags.headD "N/A", agents := ags,
              stats_all_sides := statsMap cells 2 extract_all_sides,
              stats_attack := statsMap cells 2 extract_attack,
              stats_defense := statsMap cells 2 extract_defense }
    else
      .ok { team_name := team_name, player_id := pid, player_name := pname,
            agent := agentPerMapCell c0, agents := agentsPerMapCell c0,
            stats_all_sides := statsMap cells 1 extract_all_sides,
            stats_attack := statsMap cells 1 extract_attack,
            stats_defense := statsMap cells 1 extract_defense }

/-- The row list of a stats table: all `tr` rows of the `tbody`, or none
when there is no `tbody`. -/
def tableRows (table : Node) : List Node :=
  match findNode (isTagB "tbody") table with
  | some tb => findAll (isTagB "tr") tb
  | none => []

/-- The `for row_soup in stat_rows` loop: parse each row in order,
propagating a raised exception. -/
def parseRowsList (rows : List Node) (is_overview_style : Bool) (team_name : String) :
    Except String (List PlayerData) :=
  match rows with
  | [] => .ok []
  | r :: rest => do
    let pd ← parse_player_row_stats r is_overview_style team_name
    let tail ← parseRowsList rest is_overview_style team_name
    pure (pd :: tail)

/-- Model of `_parse_player_stats_table`: all `tr` rows of the `tbody`, each handed
to the row parser; a row-level `IndexError` escapes. -/
def parse_player_stats_table (table : Node) (is_overview_style : Bool) (team_name : String) :
    Except String (List PlayerData) :=
  parseRowsList (tableRows table) is_overview_style team_name

/-! ### The stat-value normalizer (`detailed_match_scraper._clean_stat_value`) -/

/-- The dynamic value returned by `_clean_stat_value`; `PyVal.none` is the
sentinel (Python `None`). -/
inductive PyVal where
  | none : PyVal
  | vInt (n : Int) : PyVal
  | vFloat (q : Frac) : PyVal
  | vIntList (l : List Int) : PyVal
  | vStr (s : String) : PyVal
deriving DecidableEq, Repr

/-- Model of `_clean_text`: collapse whitespace runs and strip. -/
def clean_text (s : String) : String :=
  if s == "" then "" else pyStrip (collapseWs s)

/-- Model of `_clean_stat_value`; the argument is `Option String` so that a Python
`None` input is representable. -/
def clean_stat_value (value : Option String) : PyVal :=
  match value with
  | Option.none => PyVal.none
  | some v0 =>
    if v0 == "" || v0 == "-" then PyVal.none
    else
      let v := clean_text v0
      if strContains v "%" then
        match pyFloat? (pyReplace v "%" "") with
        | some q => PyVal.vFloat (q.divNat 100)
        | Option.none => PyVal.none
      else if strContains v "/" then
        match (pySplit v "/").mapM pyInt? with
        | some l => PyVal.vIntList l
        | Option.none => PyVal.vStr v
      else if strContains v "." then
        match pyFloat? v with
        | some q => PyVal.vFloat q
        | Option.none => PyVal.vStr v
      else
        match pyInt? v with
        | some n => PyVal.vInt n
        | Option.none => PyVal.vStr v

/-! ### The match header parser (`_extract_match_header_info`) -/

structure HeaderInfo where
  event_name : String
  event_stage : String
  match_date_utc : String
  patch : String
  team1_name : String
  team2_name : String
  team1_score_overall : Int
  team2_score_overall : Int
  match_format : String
  map_picks_bans_note : String
deriving DecidableEq, Repr

def divCls (c : String) (n : Node) : Bool := isTagB "div" n && matchesClass c n

/-- Model of `style=lambda x: x and pat in x`: a style attribute exists and contains
the pattern. -/
def styleContains (n : Node) (pat : String) : Bool :=
  match n.attr "style" with
  | some st => strContains st pat
  | none => false

def directChildren (p : Node → Bool) (n : Node) : List Node := n.childNodes.filter p

/-- Event name and stage from the two-level nested label structure
(lines 179-185). -/
def eventNameStage (sup : Node) : String × String :=
  match findTagClass "a" "match-header-event" sup with
  | none => ("N/A", "N/A")
  | some link =>
    match (directChildren (isTagB "div") link).head? with
    | some d0 =>
      let inner := findAll (isTagB "div") d0
      match inner.head? with
      | some i0 =>
        (getTextS i0, match inner.get? 1 with | some i1 => getTextS i1 | none => "N/A")
      | none => ("N/A", "N/A")
    | none => ("N/A", "N/A")

/-- Overall-score assignment from the spoiler spans (lines 209-225): with
exactly three spans, parse the first and third; dispatch on which carries
the winner marker class; on any `ValueError` keep the `(0, 0)` default. -/
def headerScores (spans : List Node) : Int × Int :=
  match spans with
  | [a, _, c] =>
    match pyInt? (getTextS a), pyInt? (getTextS c) with
    | some s1, some s2 =>
      if a.classList.contains "match-header-vs-score-winner" then (s1, s2)
      else if c.classList.contains "match-header-vs-score-winner" then (s2, s1)
      else (s1, s2)
    | _, _ => (0, 0)
  | _ => (0, 0)

/-- Model of `_extract_match_header_info`. -/
def extract_match_header_info (soup : Node) : HeaderInfo :=
  let dflt : HeaderInfo := {
    event_name := "N/A", event_stage := "N/A", match_date_utc := "N/A", patch := "N/A",
    team1_name := "N/A", team2_name := "N/A", team1_score_overall := 0, team2_score_overall := 0,
    match_format := "N/A", map_picks_bans_note := "N/A" }
  let h1 := match findTagClass "div" "match-header-super" soup with
    | none => dflt
    | some sup =>
      let ns := eventNameStage sup
      let h := { dflt with event_name := ns.1, event_stage := ns.2 }
      match findTagClass "div" "match-header-date" sup with
      | none => h
      | some dc =>
        let dt := match findTagClass "div" "moment-tz-convert" dc with
          | some m => if m.hasAttr "data-utc-ts" then (m.attr "data-utc-ts").getD "" else "N/A"
          | none => "N/A"
        let patch := safe_get_text (findNode (fun d => isTagB "div" d && styleContains d "italic") dc) "N/A"
        { h with match_date_utc := dt, patch := patch }
  let h2 := match findTagClass "div" "match-header-vs" soup with
    | none => h1
    | some vs =>
      let t1 := match findTagClass "a" "match-header-link mod-1" vs with
        | some tag => safe_get_text (findTagClass "div" "wf-title-med" tag) "N/A"
        | none => h1.team1_name
      let t2 := match findTagClass "a" "match-header-link mod-2" vs with
        | some tag => safe_get_text (findTagClass "div" "wf-title-med" tag) "N/A"
        | none => h1.team2_name
      let sf := match findTagClass "div" "match-header-vs-score" vs with
        | none => ((0 : Int), (0 : Int), h1.match_format)
        | some sc =>
          let ab := match findTagClass "div" "js-spoiler" sc with
            | none => ((0 : Int), (0 : Int))
            | some spoiler => headerScores (findAll (isTagB "span") spoiler)
          let notes := findAll (divCls "match-header-vs-note") sc
          let f := match notes with
            | [] => h1.match_format
            | [n0] => if strContains (pyLower (getTextS n0)) "final" then h1.match_format else getTextS n0
            | _ :: n1 :: _ => getTextS n1
          (ab.1, ab.2, f)
      { h1 with team1_name := t1, team2_name := t2,
                team1_score_overall := sf.1, team2_score_overall := sf.2.1,
                match_format := sf.2.2 }
  { h2 with map_picks_bans_note := safe_get_text (findTagClass "div" "match-header-note" soup) "N/A" }

/-! ### The map section parser (`_extract_maps_data`) -/

structure MapData where
  map_order : Nat
  map_name : String
  map_duration : String
  picked_by : String
  team1_score_map : Int
  team2_score_map : Int
  winner_team_name : String
  player_stats_t1 : List PlayerData
  player_stats_t2 : List PlayerData
deriving DecidableEq, Repr

/-- A node matched by `div.vm-stats-game[data-game-id]:not([data-game-id="all"])`
(CSS class containment, attribute present and not the `all` sentinel). -/
def isStatsGameSec (n : Node) : Bool :=
  isTagB "div" n && n.classList.contains "vm-stats-game" &&
  (match n.attr "data-game-id" with
   | some v => v != "all"
   | none => false)

-- `soup.select('div.vm-stats-container > div.vm-stats-game[data-game-id]:not([data-game-id="all"])')`:
-- all matching nodes whose parent is a `div.vm-stats-container`, in document order.
mutual
def selSec (parentIsContainer : Bool) (n : Node) : List Node :=
  match n with
  | .text _ => []
  | .elem tag cls _ children =>
    (if parentIsContainer && isStatsGameSec n then [n] else []) ++
    selSecL (tag == "div" && cls.contains "vm-stats-container") children
def selSecL (pc : Bool) : List Node → List Node
  | [] => []
  | c :: rest => selSec pc c ++ selSecL pc rest
end

def mapSections (soup : Node) : List Node := selSec false soup

/-- A node matched by `table.wf-table-inset.mod-overview`. -/
def isOverviewTable (n : Node) : Bool :=
  isTagB "table" n && n.classList.contains "wf-table-inset" && n.classList.contains "mod-overview"

-- `root.select('div > table.wf-table-inset.mod-overview')`: all matching
-- descendant tables whose parent element is a `div`, in document order.
mutual
def selTab (parentIsDiv : Bool) (n : Node) : List Node :=
  match n with
  | .text _ => []
  | .elem tag _ _ children =>
    (if parentIsDiv && isOverviewTable n then [n] else []) ++ selTabL (tag == "div") children
def selTabL (pd : Bool) : List Node → List Node
  | [] => []
  | c :: rest => selTab pd c ++ selTabL pd rest
end

def selectDivTables (root : Node) : List Node := selTabL (isTagB "div" root) root.childNodes

/-- One of the (up to two) per-team stats tables of a section: parse the
table at `idx` when present, else keep the empty default. -/
def tableOrEmpty (tables : List Node) (idx : Nat) (is_ov : Bool) (team : String) :
    Except String (List PlayerData) :=
  match tables.get? idx with
  | some tb => parse_player_stats_table tb is_ov team
  | none => pure []

/-- Per-map score pair and winner from the score divs of a map header
(lines 272-286); `.error` models the `ValueError` raised by `int()` on an
unparsable score text. -/
def scoresWinner (scoreDivs : List Node) (t1 t2 : String) : Except String (Int × Int × String) :=
  match scoreDivs with
  | s0 :: s1 :: _ =>
    match pyInt? (getTextS s0), pyInt? (getTextS s1) with
    | some a, some b =>
      .ok (a, b, if a > b then t1 else if b > a then t2 else "Draw")
    | _, _ => .error "ValueError: invalid literal for int with base 10"
  | _ => .ok (0, 0, "N/A")

/-- Header and map-info lookup that decides whether a section is parsed at
all (`continue` on lines 247 and 250). -/
def sectionHeaderDiv (sec : Node) : Option Node := findTagClass "div" "vm-stats-game-header" sec

def sectionMapDiv (sec : Node) : Option Node :=
  (sectionHeaderDiv sec).bind (fun h => findTagClass "div" "map" h)

/-- Parse one per-map section at enumeration index `i`; `.ok none` models
`continue` (section skipped), `.error` a raised exception. -/
def extractMapSection (i : Nat) (sec : Node) (t1 t2 : String) : Except String (Option MapData) :=
  match sectionHeaderDiv sec with
  | none => .ok none
  | some header =>
    match findTagClass "div" "map" header with
    | none => .ok none
    | some mapInfo =>
      let nameContainer := findNode (fun d => isTagB "div" d && styleContains d "font-weight: 700") mapInfo
      let nameSpan := match nameContainer with
        | some nc => findNode (isTagB "span") nc
        | none => none
      let mapName := pyStrip (pyReplace (safe_get_text nameSpan "N/A") "PICK" "")
      let duration := safe_get_text (findTagClass "div" "map-duration" mapInfo) "N/A"
      let pickedBy := match nameSpan with
        | none => "N/A"
        | some sp =>
          match findNode (fun d => isTagB "span" d && d.classList.any (fun c => strContains c "picked")) sp with
          | none => "Decider"
          | some ps =>
            if ps.classList.contains "mod-1" then t1
            else if ps.classList.contains "mod-2" then t2
            else "Decider"
      do
        let sw ← scoresWinner (findAll (divCls "score") header) t1 t2
        let p1 ← tableOrEmpty (selectDivTables sec) 0 false t1
        let p2 ← tableOrEmpty (selectDivTables sec) 1 false t2
        pure (some { map_order := i + 1, map_name := mapName, map_duration := duration,
                     picked_by := pickedBy, team1_score_map := sw.1, team2_score_map := sw.2.1,
                     winner_team_name := sw.2.2, player_stats_t1 := p1, player_stats_t2 := p2 })

/-- The `for i, map_section_soup in enumerate(map_sections)` loop. -/
def extractMapsList (i : Nat) (secs : List Node) (t1 t2 : String) : Except String (List MapData) :=
  match secs with
  | [] => .ok []
  | s :: rest => do
    let md? ← extractMapSection i s t1 t2
    let tail ← extractMapsList (i + 1) rest t1 t2
    match md? with
    | some md => pure (md :: tail)
    | none => pure tail

/-- Model of `_extract_maps_data`. -/
def extract_maps_data (soup : Node) (t1 t2 : String) : Except String (List MapData) :=
  extractMapsList 0 (mapSections soup) t1 t2

/-! ### Overall stats and the match assembler -/

/-- Model of `_extract_overall_player_stats`: the distinguished `all` section. -/
def extract_overall_player_stats (soup : Node) (t1 t2 : String) :
    Except String (List PlayerData × List PlayerData) :=
  match findNode (fun d => isTagB "div" d && matchesClass "vm-stats-game" d &&
                           d.attr "data-game-id" == some "all") soup with
  | none => .ok ([], [])
  | some sec => do
    let s1 ← tableOrEmpty (selectDivTables sec) 0 true t1
    let s2 ← tableOrEmpty (selectDivTables sec) 1 true t2
    pure (s1, s2)

/-- Model of `_extract_match_id`: first `/(\d+)/` group of the URL. -/
def extract_match_id (url : String) : Option String :=
  searchPreNum ['/'] url.toList

-- `soup.select('div.match-header-link-name .wf-title-med')`: descendant
-- combinator, document order.
mutual
def selTM (underLink : Bool) (n : Node) : List Node :=
  match n with
  | .text _ => []
  | .elem tag cls _ children =>
    (if underLink && cls.contains "wf-title-med" then [n] else []) ++
    selTML (underLink || (tag == "div" && cls.contains "match-header-link-name")) children
def selTML (u : Bool) : List Node → List Node
  | [] => []
  | c :: rest => selTM u c ++ selTML u rest
end

def selectTitleMed (soup : Node) : List Node := selTM false soup

/-- Team-name fallback of `get_match_details` (lines 325-332). -/
def effectiveTeamNames (soup : Node) (h : HeaderInfo) : String × String :=
  if h.team1_name == "Team 1" || h.team1_name == "N/A" then
    let es := selectTitleMed soup
    (match es.head? with
     | some e => getTextS e
     | none => h.team1_name,
     match es.get? 1 with
     | some e => getTextS e
     | none => h.team2_name)
  else (h.team1_name, h.team2_name)

/-- The assembled match record (`match_data` dict of `get_match_details`). -/
structure MatchData where
  match_url : String
  match_id : Option String
  scraped_at : String
  event_name : String
  event_stage : String
  date_utc : String
  patch : String
  team1_name : String
  team1_score_overall : Int
  team2_name : String
  team2_score_overall : Int
  match_format : String
  map_picks_bans_note : String
  maps : List MapData
  overall_t1 : List PlayerData
  overall_t2 : List PlayerData
deriving DecidableEq, Repr

/-- The body of `get_match_details` after the soup is available; `now` is
the value `datetime.now().isoformat()` reads at this run. A `.error`
result models an exception reaching the catch-all handler. -/
def build_match_data (url : String) (soup : Node) (now : String) : Except String MatchData := do
  let h := extract_match_header_info soup
  let ts := effectiveTeamNames soup h
  let maps ← extract_maps_data soup ts.1 ts.2
  let overall ← extract_overall_player_stats soup ts.1 ts.2
  pure { match_url := url, match_id := extract_match_id url, scraped_at := now,
         event_name := h.event_name, event_stage := h.event_stage,
         date_utc := h.match_date_utc, patch := h.patch,
         team1_name := ts.1, team1_score_overall := h.team1_score_overall,
         team2_name := ts.2, team2_score_overall := h.team2_score_overall,
         match_format := h.match_format, map_picks_bans_note := h.map_picks_bans_note,
         maps := maps, overall_t1 := overall.1, overall_t2 := overall.2 }

/-- Model of `get_match_details` on an already-parsed document: the catch-all
`except Exception` turns any internal exception into the empty dict,
modelled as `none`. -/
def get_match_details (url : String) (soup : Node) (now : String) : Option MatchData :=
  (build_match_data url soup now).toOption

/-! ### Concrete documents and cells used in the claim analyses -/

-- the size measure used for strong induction over the nested tree type
mutual
def nsize : Node → Nat
  | .text _ => 1
  | .elem _ _ _ cs => 1 + nsizeL cs
def nsizeL : List Node → Nat
  | [] => 0
  | c :: rest => nsize c + nsizeL rest
end

def c3scoreDiv (s : String) : Node := Node.elem "div" ["score"] [] [Node.text s]

def c5span (cls : List String) (t : String) : Node := Node.elem "span" cls [] [Node.text t]

def c5negDoc : Node :=
  Node.elem "html" [] []
    [Node.elem "div" ["match-header-vs"] []
      [Node.elem "div" ["match-header-vs-score"] []
        [Node.elem "div" ["js-spoiler"] []
          [Node.elem "span" [] [] [Node.text "-1"],
           Node.elem "span" [] [] [Node.text ":"],
           Node.elem "span" [] [] [Node.text "-2"]]]]]

def eraseScrapedAt (d : MatchData) : MatchData := { d with scraped_at := "" }

def c1cell : Node :=
  Node.elem "td" [] []
    [Node.elem "span" ["stats-sq"] [] [Node.text "250"],
     Node.elem "span" ["mod-t"] [] [Node.text "240"]]

def c1combCell : Node :=
  Node.elem "td" [] []
    [Node.elem "span" ["stats-sq"] []
      [Node.elem "span" ["side", "mod-side", "mod-both"] [] [Node.text "250"]]]

def c1splitSq : Node :=
  Node.elem "span" ["stats-sq"] []
    [Node.elem "span" ["side", "mod-side", "mod-t"] [] [Node.text "240"],
     Node.elem "span" ["side", "mod-side", "mod-ct"] [] [Node.text "260"]]

def c1splitCell : Node := Node.elem "td" [] [] [c1splitSq]

def c4kayoCell : Node :=
  Node.elem "td" [] []
    [Node.elem "span" ["stats-sq", "mod-agent", "small"] []
      [Node.elem "img" [] [("alt", ""), ("src", "https://www.vlr.gg/img/vlr/game/agents/kay-o.png")] []]]

def c4jettImg : Node := Node.elem "img" [] [("alt", "Jett"), ("src", "x")] []

def c4jettCell : Node := Node.elem "td" [] [] [Node.elem "span" ["mod-agent"] [] [c4jettImg]]

def c4razeImg : Node :=
  Node.elem "img" ["mod-agent"] [("alt", "a/b"), ("src", "https://cdn/img/vlr/game/agents/raze.png")] []

def c4razeCell : Node := Node.elem "td" [] [] [c4razeImg]

def c4emptyCell : Node := Node.elem "td" [] [] [Node.elem "span" ["mod-agent"] [] [Node.text "z"]]

def c2row : Node :=
  Node.elem "tr" [] []
    [Node.elem "td" [] [] [Node.text "p"],
     Node.elem "td" [] [] [Node.text "1.08"],
     Node.elem "td" [] [] [Node.text "200"]]

def c2pd : PlayerData := ((parse_player_row_stats c2row false "T").toOption).getD default

def c10oneCellRow : Node := Node.elem "tr" [] [] [Node.elem "td" [] [] [Node.text "p"]]

def c10emptyRow : Node := Node.elem "tr" [] [] [Node.text "z"]

def c10table : Node :=
  Node.elem "table" ["wf-table-inset", "mod-overview"] []
    [Node.elem "tbody" [] [] [c10emptyRow]]

def c9skipDoc : Node :=
  Node.elem "html" [] []
    [Node.elem "div" ["vm-stats-container"] []
      [Node.elem "div" ["vm-stats-game"] [("data-game-id", "1")] [],
       Node.elem "div" ["vm-stats-game"] [("data-game-id", "2")]
        [Node.elem "div" ["vm-stats-game-header"] []
          [Node.elem "div" ["map"] [] []]]]]

def c9goodDoc : Node :=
  Node.elem "html" [] []
    [Node.elem "div" ["vm-stats-container"] []
      [Node.elem "div" ["vm-stats-game"] [("data-game-id", "1")]
        [Node.elem "div" ["vm-stats-game-header"] []
          [Node.elem "div" ["map"] [] []]],
       Node.elem "div" ["vm-stats-game"] [("data-game-id", "2")]
        [Node.elem "div" ["vm-stats-game-header"] []
          [Node.elem "div" ["map"] [] []]]]]

def c9goodList : List MapData := ((extract_maps_data c9goodDoc "T1" "T2").toOption).getD []

def c6badDoc : Node :=
  Node.elem "html" [] []
    [Node.elem "div" ["vm-stats-container"] []
      [Node.elem "div" ["vm-stats-game"] [("data-game-id", "1")]
        [Node.elem "div" ["vm-stats-game-header"] []
          [Node.elem "div" ["map"] [] [],
           Node.elem "div" ["score"] [] [Node.text "x"],
           Node.elem "div" ["score"] [] [Node.text "11"]]]]]

/-! ## Facts about the document-tree search space -/

theorem mem_descendantsL {x : Node} {l : List Node} :
    x ∈ descendantsL l ↔ ∃ c ∈ l, x = c ∨ x ∈ descendants c := by
  induction l with
  | nil => simp [descendantsL]
  | cons c rest ih =>
    simp only [descendantsL, List.mem_cons, List.mem_append, ih]
    constructor
    · rintro (h | h | h)
      · exact ⟨c, Or.inl rfl, Or.inl h⟩
      · exact ⟨c, Or.inl rfl, Or.inr h⟩
      · obtain ⟨d, hd, hx⟩ := h
        exact ⟨d, Or.inr hd, hx⟩
    · rintro ⟨d, (rfl | hd), hx⟩
      · rcases hx with h | h
        · exact Or.inl h
        · exact Or.inr (Or.inl h)
      · exact Or.inr (Or.inr ⟨d, hd, hx⟩)

theorem nsize_le_of_mem {c : Node} {l : List Node} (h : c ∈ l) : nsize c ≤ nsizeL l := by
  induction l with
  | nil => simp at h
  | cons d rest ih =>
    rcases List.mem_cons.mp h with rfl | h2
    · simp only [nsizeL]
      omega
    · have := ih h2
      simp only [nsizeL]
      omega

theorem descendants_trans_aux :
    ∀ n (z y x : Node), nsize z = n → y ∈ descendants z → x ∈ descendants y →
      x ∈ descendants z := by
  intro n
  induction n using Nat.strong_induction_on with
  | _ n ih =>
    intro z y x hsz hyz hxy
    cases z with
    | text s => simp [descendants] at hyz
    | elem t cls attrs cs =>
      have hyz2 : ∃ c ∈ cs, y = c ∨ y ∈ descendants c := mem_descendantsL.mp hyz
      obtain ⟨c, hc, hcase⟩ := hyz2
      show x ∈ descendantsL cs
      rcases hcase with rfl | hyc
      · exact mem_descendantsL.mpr ⟨y, hc, Or.inr hxy⟩
      · have hlt : nsize c < n := by
          have h1 : nsize c ≤ nsizeL cs := nsize_le_of_mem hc
          have h2 : nsize (Node.elem t cls attrs cs) = 1 + nsizeL cs := rfl
          omega
        have hxc : x ∈ descendants c := ih (nsize c) hlt c y x rfl hyc hxy
        exact mem_descendantsL.mpr ⟨c, hc, Or.inr hxc⟩

/-- Membership in the descendant list is transitive. -/
theorem descendants_trans {z y x : Node} (hyz : y ∈ descendants z) (hxy : x ∈ descendants y) :
    x ∈ descendants z :=
  descendants_trans_aux (nsize z) z y x rfl hyz hxy

theorem head?_mem {α : Type} {l : List α} {a : α} (h : l.head? = some a) : a ∈ l := by
  cases l with
  | nil => simp at h
  | cons b t =>
    simp only [List.head?] at h
    injection h with h
    subst h
    exact List.mem_cons_self b t

theorem findNode_eq_none_iff {p : Node → Bool} {n : Node} :
    findNode p n = none ↔ ∀ x ∈ descendants n, p x = false := by
  unfold findNode findAll
  rw [List.head?_eq_none_iff, List.filter_eq_nil_iff]
  simp

theorem findNode_eq_some {p : Node → Bool} {n m : Node} (h : findNode p n = some m) :
    m ∈ descendants n ∧ p m = true := by
  unfold findNode findAll at h
  have hm := head?_mem h
  exact ⟨(List.mem_filter.mp hm).1, (List.mem_filter.mp hm).2⟩

/-- A `find` that fails on a whole subtree also fails on any node inside
that subtree. -/
theorem findSub_none {p : Node → Bool} {cell sq : Node} (hnone : findNode p cell = none)
    (hsq : sq ∈ descendants cell) : findNode p sq = none := by
  rw [findNode_eq_none_iff] at hnone ⊢
  intro x hx
  exact hnone x (descendants_trans hsq hx)

theorem isNoneAnd_false {o1 o2 : Option Node} (h : (o1.isSome || o2.isSome) = true) :
    (o1.isNone && o2.isNone) = false := by
  cases o1 <;> cases o2 <;> simp_all

theorem findSpanCls_mem {c : String} {n m : Node} (h : findSpanCls c n = some m) :
    m ∈ descendants n := by
  unfold findSpanCls findTagClass at h
  exact (findNode_eq_some h).1

theorem findSpanCls_sub_none {c : String} {cell sq : Node} (h : findSpanCls c cell = none)
    (hsq : sq ∈ descendants cell) : findSpanCls c sq = none := by
  unfold findSpanCls findTagClass at h ⊢
  exact findSub_none h hsq

/-! ## Claim C3: per-map winner derivation -/

/-- C3: for every map section score-node list handed to the winner logic of
`_extract_maps_data`, when at least two score nodes are present and both
texts parse as integers, the winner is team1 on a strictly greater first
score, team2 on a strictly greater second score, and "Draw" on equality;
when fewer than two score nodes are present both scores default to 0 and
the winner is the unknown sentinel, never guessed. -/
theorem c3_map_winner_spec (scoreDivs : List Node) (t1 t2 : String) :
    (∀ s0 s1 rest a b, scoreDivs = s0 :: s1 :: rest →
       pyInt? (getTextS s0) = some a → pyInt? (getTextS s1) = some b →
       scoresWinner scoreDivs t1 t2 =
         .ok (a, b, if a > b then t1 else if b > a then t2 else "Draw"))
    ∧ (scoreDivs.length < 2 → scoresWinner scoreDivs t1 t2 = .ok (0, 0, "N/A")) := by
  constructor
  · intro s0 s1 rest a b heq ha hb
    subst heq
    simp only [scoresWinner, ha, hb]
  · intro hlen
    match scoreDivs with
    | [] => rfl
    | [_] => rfl
    | _ :: _ :: _ => simp at hlen; omega

/-- Witness for C3 at the scores of the spec examples: 13-11, 11-13, 13-13,
and a single score node. -/
theorem c3_map_winner_spec_witness :
    scoresWinner [c3scoreDiv "13", c3scoreDiv "11"] "T1" "T2" = .ok (13, 11, "T1") ∧
    scoresWinner [c3scoreDiv "11", c3scoreDiv "13"] "T1" "T2" = .ok (11, 13, "T2") ∧
    scoresWinner [c3scoreDiv "13", c3scoreDiv "13"] "T1" "T2" = .ok (13, 13, "Draw") ∧
    scoresWinner [c3scoreDiv "13"] "T1" "T2" = .ok (0, 0, "N/A") := by
  refine ⟨?_, ?_, ?_, ?_⟩
  · rw [(c3_map_winner_spec [c3scoreDiv "13", c3scoreDiv "11"] "T1" "T2").1 _ _ [] 13 11 rfl
      (by decide) (by decide)]
    decide
  · rw [(c3_map_winner_spec [c3scoreDiv "11", c3scoreDiv "13"] "T1" "T2").1 _ _ [] 11 13 rfl
      (by decide) (by decide)]
    decide
  · rw [(c3_map_winner_spec [c3scoreDiv "13", c3scoreDiv "13"] "T1" "T2").1 _ _ [] 13 13 rfl
      (by decide) (by decide)]
    decide
  · exact (c3_map_winner_spec [c3scoreDiv "13"] "T1" "T2").2 (by decide)

/-! ## Claim C5: header overall-score assignment -/

/-- C5 (amended): with exactly three spoiler spans whose first and third
texts parse as integers, the team1/team2 overall scores are assigned by
checking which of the first and third spans carries the winner marker
class, in document order when neither does; if either text is unparsable
both scores stay at the 0 default without raising. The never-negative
consequence of the original claim is dropped: the scores are exactly the
parsed integers, so a negative score text yields a negative score. -/
theorem c5_header_scores_amended (spans : List Node) (a b c : Node) (h3 : spans = [a, b, c]) :
    (∀ s1 s2, pyInt? (getTextS a) = some s1 → pyInt? (getTextS c) = some s2 →
       headerScores spans =
         (if a.classList.contains "match-header-vs-score-winner" then (s1, s2)
          else if c.classList.contains "match-header-vs-score-winner" then (s2, s1)
          else (s1, s2)))
    ∧ ((pyInt? (getTextS a) = none ∨ pyInt? (getTextS c) = none) →
       headerScores spans = (0, 0)) := by
  subst h3
  constructor
  · intro s1 s2 h1 h2
    simp only [headerScores, h1, h2]
  · intro h
    rcases h with h | h
    · cases hc : pyInt? (getTextS c) <;> simp only [headerScores, h, hc]
    · cases ha : pyInt? (getTextS a) <;> simp only [headerScores, h, ha]

/-- Witness for C5 (amended): winner class on the first span, on the third
span, on neither, and an unparsable score text. -/
theorem c5_header_scores_amended_witness :
    headerScores [c5span ["match-header-vs-score-winner"] "2", c5span [] ":", c5span [] "1"] = (2, 1) ∧
    headerScores [c5span [] "0", c5span [] ":", c5span ["match-header-vs-score-winner"] "2"] = (2, 0) ∧
    headerScores [c5span [] "1", c5span [] ":", c5span [] "2"] = (1, 2) ∧
    headerScores [c5span [] "x", c5span [] ":", c5span [] "2"] = (0, 0) := by
  refine ⟨?_, ?_, ?_, ?_⟩
  · rw [(c5_header_scores_amended _ _ _ _ rfl).1 2 1 (by decide) (by decide)]; decide
  · rw [(c5_header_scores_amended _ _ _ _ rfl).1 0 2 (by decide) (by decide)]; decide
  · rw [(c5_header_scores_amended _ _ _ _ rfl).1 1 2 (by decide) (by decide)]; decide
  · exact (c5_header_scores_amended _ _ _ _ rfl).2 (Or.inl (by decide))

/-- C5 counterexample: a header whose score spans carry negative integer
texts flows through `int()` into a negative team1 overall score, so the
overall scores are not never-negative. -/
theorem c5_counterexample :
    (extract_match_header_info c5negDoc).team1_score_overall = -1 ∧
    ¬ (0 ≤ (extract_match_header_info c5negDoc).team1_score_overall) := by
  constructor
  · decide
  · decide

/-! ## Claim C7: idempotence of the parse -/

/-- C7 (amended): parsing the same document tree twice with the same source
URL yields records identical in every field except `scraped_at`, which
records the wall-clock time of the run (`datetime.now()`), a run-dependent
value not sourced from the document. -/
theorem c7_idempotent_amended (url : String) (soup : Node) (now1 now2 : String) :
    (build_match_data url soup now1).map eraseScrapedAt =
    (build_match_data url soup now2).map eraseScrapedAt := by
  simp only [build_match_data]
  cases hm : extract_maps_data soup (effectiveTeamNames soup (extract_match_header_info soup)).1
      (effectiveTeamNames soup (extract_match_header_info soup)).2 with
  | error e => rfl
  | ok maps =>
    cases ho : extract_overall_player_stats soup
        (effectiveTeamNames soup (extract_match_header_info soup)).1
        (effectiveTeamNames soup (extract_match_header_info soup)).2 with
    | error e => rfl
    | ok overall => rfl

/-- C7 counterexample: the two runs of the claim differ whenever the clock
moved between them, because `scraped_at` records the run time. -/
theorem c7_counterexample :
    get_match_details "u" (Node.elem "html" [] [] []) "2024-01-01T00:00:00" ≠
    get_match_details "u" (Node.elem "html" [] [] []) "2024-01-01T00:00:01" := by decide

/-! ## Claim C8: the stat-value normalizer -/

/-- C8 counterexample: on integer parse failure the normalizer returns the
cleaned original text, not the sentinel, and grouping separators are not
stripped. -/
theorem c8_counterexample :
    clean_stat_value (some "abc") = PyVal.vStr "abc" ∧
    PyVal.vStr "abc" ≠ PyVal.none ∧
    clean_stat_value (some "1,234") = PyVal.vStr "1,234" := by
  refine ⟨by decide, by decide, by decide⟩

/-- C8 (amended): the normalizer is total; it returns the sentinel on
`None`, empty or "-" input and on percent parse failure; it returns the
exact fraction value/100 for a percent input; it returns the list of
integers for a slash-separated input and the cleaned original text on
slash parse failure; and on plain integer or float parse failure it
returns the cleaned original text unchanged rather than the sentinel (no
grouping-separator stripping is performed). -/
theorem c8_clean_stat_value_amended :
    (clean_stat_value Option.none = PyVal.none) ∧
    (clean_stat_value (some "") = PyVal.none) ∧
    (clean_stat_value (some "-") = PyVal.none) ∧
    (∀ s q, (s == "") = false → (s == "-") = false →
       strContains (clean_text s) "%" = true →
       pyFloat? (pyReplace (clean_text s) "%" "") = some q →
       clean_stat_value (some s) = PyVal.vFloat (q.divNat 100)) ∧
    (∀ s, (s == "") = false → (s == "-") = false →
       strContains (clean_text s) "%" = true →
       pyFloat? (pyReplace (clean_text s) "%" "") = Option.none →
       clean_stat_value (some s) = PyVal.none) ∧
    (∀ s x y a b, (s == "") = false → (s == "-") = false →
       strContains (clean_text s) "%" = false →
       pySplit (clean_text s) "/" = [x, y] →
       pyInt? x = some a → pyInt? y = some b →
       clean_stat_value (some s) = PyVal.vIntList [a, b]) ∧
    (∀ s, (s == "") = false → (s == "-") = false →
       strContains (clean_text s) "%" = false →
       strContains (clean_text s) "/" = true →
       (pySplit (clean_text s) "/").mapM pyInt? = Option.none →
       clean_stat_value (some s) = PyVal.vStr (clean_text s)) ∧
    (∀ s, (s == "") = false → (s == "-") = false →
       strContains (clean_text s) "%" = false →
       strContains (clean_text s) "/" = false →
       strContains (clean_text s) "." = true →
       pyFloat? (clean_text s) = Option.none →
       clean_stat_value (some s) = PyVal.vStr (clean_text s)) ∧
    (∀ s, (s == "") = false → (s == "-") = false →
       strContains (clean_text s) "%" = false →
       strContains (clean_text s) "/" = false →
       strContains (clean_text s) "." = false →
       pyInt? (clean_text s) = Option.none →
       clean_stat_value (some s) = PyVal.vStr (clean_text s)) := by
  refine ⟨by decide, by decide, by decide, ?_, ?_, ?_, ?_, ?_, ?_⟩
  · intro s q h1 h2 hp hf
    simp only [clean_stat_value, h1, h2, Bool.or_self, Bool.false_eq_true, if_false, hp, if_true, hf]
  · intro s h1 h2 hp hf
    simp only [clean_stat_value, h1, h2, Bool.or_self, Bool.false_eq_true, if_false, hp, if_true, hf]
  · intro s x y a b h1 h2 hp hsplit ha hb
    have hslash : strContains (clean_text s) "/" = true := by
      unfold strContains
      rw [hsplit]
      rfl
    simp only [clean_stat_value, h1, h2, Bool.or_self, Bool.false_eq_true, if_false, hp, hslash,
      if_true, hsplit]
    simp [List.mapM.loop, ha, hb]
  · intro s h1 h2 hp hslash hm
    simp only [clean_stat_value, h1, h2, Bool.or_self, Bool.false_eq_true, if_false, hp, hslash,
      if_true, hm]
  · intro s h1 h2 hp hslash hdot hf
    simp only [clean_stat_value, h1, h2, Bool.or_self, Bool.false_eq_true, if_false, hp, hslash,
      hdot, if_true, hf]
  · intro s h1 h2 hp hslash hdot hi
    simp only [clean_stat_value, h1, h2, Bool.or_self, Bool.false_eq_true, if_false, hp, hslash,
      hdot, if_true, hi]

/-- Witness for C8 (amended) at concrete inputs of every branch. -/
theorem c8_clean_stat_value_amended_witness :
    clean_stat_value (some "75%") = PyVal.vFloat ⟨75, 100⟩ ∧
    clean_stat_value (some "x%") = PyVal.none ∧
    clean_stat_value (some "3/4") = PyVal.vIntList [3, 4] ∧
    clean_stat_value (some "3/z") = PyVal.vStr "3/z" ∧
    clean_stat_value (some "a.b") = PyVal.vStr "a.b" ∧
    clean_stat_value (some "xyz") = PyVal.vStr "xyz" := by
  refine ⟨?_, ?_, ?_, ?_, ?_, ?_⟩
  · rw [c8_clean_stat_value_amended.2.2.2.1 "75%" ⟨75, 1⟩ (by decide) (by decide) (by decide)
      (by decide)]
    decide
  · exact c8_clean_stat_value_amended.2.2.2.2.1 "x%" (by decide) (by decide) (by decide) (by decide)
  · exact c8_clean_stat_value_amended.2.2.2.2.2.1 "3/4" "3" "4" 3 4 (by decide) (by decide)
      (by decide) (by decide) (by decide) (by decide)
  · exact c8_clean_stat_value_amended.2.2.2.2.2.2.1 "3/z" (by decide) (by decide) (by decide)
      (by decide) (by decide)
  · exact c8_clean_stat_value_amended.2.2.2.2.2.2.2.1 "a.b" (by decide) (by decide) (by decide)
      (by decide) (by decide) (by decide)
  · exact c8_clean_stat_value_amended.2.2.2.2.2.2.2.2 "xyz" (by decide) (by decide) (by decide)
      (by decide) (by decide) (by decide)

/-! ## Claim C1: side-stat disaggregation -/

theorem chainC_eq (cell : Node) (h2 : findSpanCls "mod-t" cell = none)
    (h4 : findSpanCls "mod-ct" cell = none) : allSidesC cell = chainC cell := by
  unfold allSidesC chainC
  cases hsq : findSpanCls "stats-sq" cell with
  | none => rfl
  | some sq =>
    have hmem : sq ∈ descendants cell := findSpanCls_mem hsq
    have g1 : findSpanCls "mod-t" sq = none := findSpanCls_sub_none h2 hmem
    have g2 : findSpanCls "mod-ct" sq = none := findSpanCls_sub_none h4 hmem
    simp [hsq, g1, g2]

theorem chainD_eq (cell : Node) (h2 : findSpanCls "mod-t" cell = none)
    (h4 : findSpanCls "mod-ct" cell = none) : allSidesD cell = chainD cell := by
  unfold allSidesD chainD
  rw [chainC_eq cell h2 h4, h2, h4]
  simp

/-- C1 (amended): for every stat cell, if the cell contains no
attack-marker and no defense-marker span (combined-only cell), the attack
and defense values are the sentinel while the all-sides value is computed
by the guard-free combined-value strategy chain; and if the cell contains
an attack- or defense-marker span but no both-marker span, the all-sides
value is the sentinel provided the first generic statistic-square wrapper,
when present, itself contains an attack- or defense-marker span - strategy
(c) inspects only the wrapper's own descendants, while strategy (d)
inspects the whole cell. -/
theorem c1_side_stat_amended (cell : Node) :
    (findSpanCls "side mod-side mod-t" cell = none → findSpanCls "mod-t" cell = none →
     findSpanCls "side mod-side mod-ct" cell = none → findSpanCls "mod-ct" cell = none →
     extract_attack cell = "N/A" ∧ extract_defense cell = "N/A" ∧
     extract_all_sides cell = combinedChain cell) ∧
    (findSpanCls "side mod-side mod-both" cell = none → findSpanCls "mod-both" cell = none →
     ((findSpanCls "mod-t" cell).isSome || (findSpanCls "mod-ct" cell).isSome) = true →
     (∀ sq, findSpanCls "stats-sq" cell = some sq →
        ((findSpanCls "mod-t" sq).isSome || (findSpanCls "mod-ct" sq).isSome) = true) →
     extract_all_sides cell = "N/A") := by
  constructor
  · intro h1 h2 h3 h4
    refine ⟨?_, ?_, ?_⟩
    · unfold extract_attack
      rw [h1, h2]
      rfl
    · unfold extract_defense
      rw [h3, h4]
      rfl
    · unfold extract_all_sides combinedChain
      rw [chainD_eq cell h2 h4]
  · intro ha hb hpres hsq
    have hnm : needMore "N/A" = true := rfl
    have hA : allSidesA cell = "N/A" := by
      unfold allSidesA
      rw [ha]
    have hB : allSidesB cell = "N/A" := by
      unfold allSidesB
      rw [hA, hb]
      rfl
    have hC : allSidesC cell = "N/A" := by
      unfold allSidesC
      rw [hB]
      cases hs : findSpanCls "stats-sq" cell with
      | none => rfl
      | some sq =>
        have hg := isNoneAnd_false (hsq sq hs)
        simp [hnm, hg]
    have hD : allSidesD cell = "N/A" := by
      unfold allSidesD
      rw [hC]
      have hg := isNoneAnd_false hpres
      simp [hnm, hg]
    unfold extract_all_sides
    rw [hD]
    rfl

/-- C1 counterexample: a cell with an attack-marker span and no both-marker
span whose statistic-square wrapper holds a plain value: the all-sides
output is that value, not the sentinel, although the cell has only
side-split markers in the sense of the claim. -/
theorem c1_counterexample :
    (findSpanCls "mod-t" c1cell).isSome = true ∧
    findSpanCls "mod-both" c1cell = none ∧
    findSpanCls "side mod-side mod-both" c1cell = none ∧
    extract_all_sides c1cell = "250" ∧
    extract_attack c1cell = "240" ∧
    extract_all_sides c1cell ≠ "N/A" := by
  refine ⟨by decide, by decide, by decide, by decide, by decide, by decide⟩

/-- Witness for C1 (amended): a combined-only cell and a side-split cell
whose statistic-square wrapper holds the side values. -/
theorem c1_side_stat_amended_witness :
    (extract_attack c1combCell = "N/A" ∧ extract_defense c1combCell = "N/A" ∧
     extract_all_sides c1combCell = combinedChain c1combCell) ∧
    extract_all_sides c1splitCell = "N/A" := by
  constructor
  · exact (c1_side_stat_amended c1combCell).1 (by decide) (by decide) (by decide) (by decide)
  · refine (c1_side_stat_amended c1splitCell).2 (by decide) (by decide) (by decide) ?_
    intro sq hs
    have he : findSpanCls "stats-sq" c1splitCell = some c1splitSq := by decide
    rw [he] at hs
    injection hs with hs
    subst hs
    decide

/-! ## Claim C4: agent icon resolution -/

/-- C4: an alt/title candidate is accepted as the agent name only when it
is non-empty, strictly shorter than 20 characters and free of path
separators; otherwise the name is derived from the image source (last
`/agents/` segment, extension stripped, dashes to spaces, title-cased) -
an empty alt with source path ending `agents/kay-o.png` yields "Kay O";
and a cell containing no icon at all yields an empty agent sequence, not a
one-element sentinel list. -/
theorem c4_agent_resolution :
    (∀ cell img, findAgentImg cell = some img →
       agentCandidate img ≠ "" → pyLen (agentCandidate img) < 20 →
       hasChar (agentCandidate img) '/' = false →
       agentPerMapCell cell = agentCandidate img) ∧
    (∀ cell img src, findAgentImg cell = some img →
       (agentCandidate img != "" && decide (pyLen (agentCandidate img) < 20) &&
         !(hasChar (agentCandidate img) '/')) = false →
       img.attr "src" = some src →
       strContains src "/img/vlr/game/agents/" = true →
       srcDerived src ≠ "" → pyLen (srcDerived src) < 20 →
       agentPerMapCell cell = pyTitle (srcDerived src)) ∧
    agentPerMapCell c4kayoCell = "Kay O" ∧
    (∀ cell, findAll (isTagB "img") cell = [] → agentsPerMapCell cell = []) := by
  refine ⟨?_, ?_, by decide, ?_⟩
  · intro cell img hf hne hlt hsl
    have h1 : (agentCandidate img != "") = true := by simp [bne_iff_ne, hne]
    have h2 : decide (pyLen (agentCandidate img) < 20) = true := decide_eq_true hlt
    have h3 : (!(hasChar (agentCandidate img) '/')) = true := by rw [hsl]; rfl
    simp only [agentPerMapCell, hf, agentFromImg, h1, h2, h3]
    simp
  · intro cell img src hf hfalse hsrc hcont hne hlt
    have h1 : (srcDerived src != "") = true := by simp [bne_iff_ne, hne]
    have h2 : decide (pyLen (srcDerived src) < 20) = true := decide_eq_true hlt
    simp only [agentPerMapCell, hf, agentFromImg, hfalse, hsrc, Option.getD, hcont, h1, h2]
    simp
  · intro cell himg
    have hall : ∀ x ∈ descendants cell, isTagB "img" x = false := by
      intro x hx
      have hnm : x ∉ findAll (isTagB "img") cell := by rw [himg]; simp
      by_contra hb
      rw [Bool.not_eq_false] at hb
      exact hnm (List.mem_filter.mpr ⟨hx, hb⟩)
    have hp1 : (match findSpanCls "mod-agent" cell with
        | some sp => findNode (isTagB "img") sp
        | none => none) = (none : Option Node) := by
      cases hsp : findSpanCls "mod-agent" cell with
      | none => rfl
      | some sp =>
        show findNode (isTagB "img") sp = none
        rw [findNode_eq_none_iff]
        intro x hx
        exact hall x (descendants_trans (findSpanCls_mem hsp) hx)
    have hp2 : findNode (fun d => isTagB "img" d && matchesClass "mod-agent" d) cell = none := by
      rw [findNode_eq_none_iff]
      intro x hx
      rw [hall x hx]
      rfl
    have hp3 : (findAll (isTagB "img") cell).find?
        (fun im => strContains ((im.attr "src").getD "") "/img/vlr/game/agents/") = none := by
      rw [himg]
      rfl
    simp only [agentsPerMapCell, agentPerMapCell, findAgentImg, hp1, hp2, hp3]
    rfl

/-- Witness for C4: a valid alt candidate, a rejected candidate resolved
from the source path, and an icon-free cell. -/
theorem c4_agent_resolution_witness :
    agentPerMapCell c4jettCell = "Jett" ∧
    agentPerMapCell c4razeCell = "Raze" ∧
    agentsPerMapCell c4emptyCell = [] := by
  refine ⟨?_, ?_, ?_⟩
  · have h := c4_agent_resolution.1 c4jettCell c4jettImg (by decide) (by decide) (by decide)
      (by decide)
    rw [h]
    decide
  · have h := c4_agent_resolution.2.1 c4razeCell c4razeImg "https://cdn/img/vlr/game/agents/raze.png"
      (by decide) (by decide) (by decide) (by decide) (by decide) (by decide)
    rw [h]
    decide
  · exact c4_agent_resolution.2.2.2 c4emptyCell (by decide)

/-! ## Claim C2: fixed stat indexing and short rows -/

theorem statsMapAux_get? (cells : List Node) (f : Node → String) (idx : Nat) (ks : List String)
    (j : Nat) :
    (statsMapAux cells f idx ks).get? j =
      (ks.get? j).map (fun k => (k, statCellValue cells (idx + j) f)) := by
  induction ks generalizing idx j with
  | nil => simp [statsMapAux]
  | cons k ks ih =>
    cases j with
    | zero => simp [statsMapAux]
    | succ j =>
      simp only [statsMapAux, List.get?_cons_succ, ih]
      have harith : idx + 1 + j = idx + (j + 1) := by omega
      rw [harith]

theorem parse_player_row_ok (row : Node) (is_ov : Bool) (team : String) (pd : PlayerData)
    (hok : parse_player_row_stats row is_ov team = .ok pd) :
    pd.stats_all_sides = statsMap (tds row) (if is_ov then 2 else 1) extract_all_sides ∧
    pd.stats_attack = statsMap (tds row) (if is_ov then 2 else 1) extract_attack ∧
    pd.stats_defense = statsMap (tds row) (if is_ov then 2 else 1) extract_defense := by
  unfold parse_player_row_stats at hok
  cases hcs : tds row with
  | nil =>
    rw [hcs] at hok
    simp at hok
  | cons c0 rest =>
    rw [hcs] at hok
    cases is_ov with
    | false =>
      simp only [Bool.false_eq_true, if_false, Except.ok.injEq] at hok
      subst hok
      exact ⟨by simp [hcs, statsMap], by simp [hcs, statsMap], by simp [hcs, statsMap]⟩
    | true =>
      cases rest with
      | nil => simp at hok
      | cons c1 rest2 =>
        simp only [if_true, Except.ok.injEq] at hok
        subst hok
        exact ⟨by simp [hcs, statsMap], by simp [hcs, statsMap], by simp [hcs, statsMap]⟩

/-- C2: for every player row the parser returns, the key at position `i` of
each of the three stat maps is the `i`-th fixed StatKey (no shifting);
when the row has no cell at stat-start-offset plus `i` the value written
there is the sentinel in all three maps, and when it does have one the
value is the disaggregation of exactly that cell. -/
theorem c2_stat_indexing (row : Node) (is_ov : Bool) (team : String) (pd : PlayerData)
    (hok : parse_player_row_stats row is_ov team = .ok pd) (i : Nat) :
    ((pd.stats_all_sides.get? i).map Prod.fst = stat_keys.get? i ∧
     (pd.stats_attack.get? i).map Prod.fst = stat_keys.get? i ∧
     (pd.stats_defense.get? i).map Prod.fst = stat_keys.get? i) ∧
    ((tds row).length ≤ (if is_ov then 2 else 1) + i →
      (pd.stats_all_sides.get? i).map Prod.snd = (stat_keys.get? i).map (fun _ => "N/A") ∧
      (pd.stats_attack.get? i).map Prod.snd = (stat_keys.get? i).map (fun _ => "N/A") ∧
      (pd.stats_defense.get? i).map Prod.snd = (stat_keys.get? i).map (fun _ => "N/A")) ∧
    (∀ c, (tds row).get? ((if is_ov then 2 else 1) + i) = some c →
      (pd.stats_all_sides.get? i).map Prod.snd = (stat_keys.get? i).map (fun _ => extract_all_sides c) ∧
      (pd.stats_attack.get? i).map Prod.snd = (stat_keys.get? i).map (fun _ => extract_attack c) ∧
      (pd.stats_defense.get? i).map Prod.snd = (stat_keys.get? i).map (fun _ => extract_defense c)) := by
  obtain ⟨hA, hT, hD⟩ := parse_player_row_ok row is_ov team pd hok
  rw [hA, hT, hD]
  simp only [statsMap, statsMapAux_get?]
  refine ⟨⟨?_, ?_, ?_⟩, ?_, ?_⟩
  · cases stat_keys.get? i <;> rfl
  · cases stat_keys.get? i <;> rfl
  · cases stat_keys.get? i <;> rfl
  · intro hlen
    have hcell : (tds row).get? ((if is_ov then 2 else 1) + i) = none :=
      List.get?_eq_none.mpr hlen
    simp only [statCellValue, hcell]
    refine ⟨?_, ?_, ?_⟩ <;> (cases stat_keys.get? i <;> rfl)
  · intro c hc
    simp only [statCellValue, hc]
    refine ⟨?_, ?_, ?_⟩ <;> (cases stat_keys.get? i <;> rfl)

/-- Witness for C2 at a per-map row with three cells: key 5 is beyond the
cells and sentinel in the all-sides map, while key 0 reads the cell at
offset 1. -/
theorem c2_stat_indexing_witness :
    (c2pd.stats_all_sides.get? 5).map Prod.snd = some "N/A" ∧
    (c2pd.stats_all_sides.get? 0).map Prod.snd = some "1.08" ∧
    (c2pd.stats_all_sides.get? 0).map Prod.fst = some "rating" := by
  have hok : parse_player_row_stats c2row false "T" = .ok c2pd := by decide
  refine ⟨?_, ?_, ?_⟩
  · have h := (c2_stat_indexing c2row false "T" c2pd hok 5).2.1 (by decide)
    rw [h.1]
    decide
  · have h := (c2_stat_indexing c2row false "T" c2pd hok 0).2.2
      (Node.elem "td" [] [] [Node.text "1.08"]) (by decide)
    rw [h.1]
    decide
  · have h := (c2_stat_indexing c2row false "T" c2pd hok 0).1.1
    rw [h]
    decide

/-! ## Claim C10: row-parser totality -/

theorem row_error_of_no_cells (row : Node) (is_ov : Bool) (team : String) (h : tds row = []) :
    parse_player_row_stats row is_ov team = .error "IndexError: list index out of range" := by
  unfold parse_player_row_stats
  rw [h]

theorem rows_error_of_empty_row (rows : List Node) (is_ov : Bool) (team : String)
    (h : ∃ r ∈ rows, tds r = []) :
    ∃ e, parseRowsList rows is_ov team = .error e := by
  induction rows with
  | nil => simp at h
  | cons a t ih =>
    obtain ⟨r, hr, hre⟩ := h
    rcases List.mem_cons.mp hr with rfl | hrt
    · exact ⟨"IndexError: list index out of range",
        by simp [parseRowsList, row_error_of_no_cells r is_ov team hre, Bind.bind, Except.bind]⟩
    · cases hp : parse_player_row_stats a is_ov team with
      | error e => exact ⟨e, by simp [parseRowsList, hp, Bind.bind, Except.bind]⟩
      | ok pd =>
        obtain ⟨e, he⟩ := ih ⟨r, hrt, hre⟩
        exact ⟨e, by simp [parseRowsList, hp, he, Bind.bind, Except.bind]⟩

/-- C10 (amended): a row with zero cells makes the row parser raise an
index error in either style, and the error escapes to the table parser;
in per-map style one cell suffices for a player record (whose name falls
back to the first cell's whole text when no anchor exists), but overview
style additionally dereferences a second cell, so a one-cell overview row
raises as well. -/
theorem c10_row_totality_amended :
    (∀ row is_ov team, tds row = [] →
       parse_player_row_stats row is_ov team = .error "IndexError: list index out of range") ∧
    (∀ row team c0 rest, tds row = c0 :: rest →
       ∃ pd, parse_player_row_stats row false team = .ok pd ∧
         (findNode (isTagB "a") c0 = none → pd.player_name = getTextS c0)) ∧
    (∀ row team c0, tds row = [c0] →
       parse_player_row_stats row true team = .error "IndexError: list index out of range") ∧
    (∀ table is_ov team, (∃ r ∈ tableRows table, tds r = []) →
       ∃ e, parse_player_stats_table table is_ov team = .error e) := by
  refine ⟨?_, ?_, ?_, ?_⟩
  · exact row_error_of_no_cells
  · intro row team c0 rest hcs
    unfold parse_player_row_stats
    rw [hcs]
    refine ⟨_, rfl, ?_⟩
    intro hna
    simp [hna, safe_get_text]
  · intro row team c0 hcs
    unfold parse_player_row_stats
    rw [hcs]
    rfl
  · intro table is_ov team h
    exact rows_error_of_empty_row (tableRows table) is_ov team h

/-- C10 counterexample: a row with one cell does not return a player record
in overview style - it raises the index error, because the agent cell is
dereferenced unconditionally. -/
theorem c10_counterexample :
    (tds c10oneCellRow).length = 1 ∧
    parse_player_row_stats c10oneCellRow true "T" =
      .error "IndexError: list index out of range" := by
  exact ⟨by decide, by decide⟩

/-- Witness for C10 (amended) at concrete rows and a concrete table. -/
theorem c10_row_totality_amended_witness :
    parse_player_row_stats c10emptyRow false "T" = .error "IndexError: list index out of range" ∧
    (parse_player_row_stats c10oneCellRow false "T").map (fun pd => pd.player_name) = .ok "p" ∧
    parse_player_row_stats c10oneCellRow true "T" = .error "IndexError: list index out of range" ∧
    (parse_player_stats_table c10table false "T").isOk = false := by
  refine ⟨?_, ?_, ?_, ?_⟩
  · exact c10_row_totality_amended.1 c10emptyRow false "T" (by decide)
  · obtain ⟨pd, hpd, hname⟩ := c10_row_totality_amended.2.1 c10oneCellRow "T"
      (Node.elem "td" [] [] [Node.text "p"]) [] (by decide)
    rw [hpd]
    simp only [Except.map]
    rw [hname (by decide)]
    decide
  · exact c10_row_totality_amended.2.2.1 c10oneCellRow "T" (Node.elem "td" [] [] [Node.text "p"])
      (by decide)
  · obtain ⟨e, he⟩ := c10_row_totality_amended.2.2.2 c10table false "T"
      ⟨c10emptyRow, by decide, by decide⟩
    rw [he]
    rfl

/-! ## Claim C9: map order indices -/

theorem except_bind_ok {ε α β : Type} (m : Except ε α) (f : α → Except ε β) (b : β)
    (h : (m >>= f) = .ok b) : ∃ a, m = .ok a ∧ f a = .ok b := by
  cases m with
  | error e => simp [Bind.bind, Except.bind] at h
  | ok a => exact ⟨a, rfl, by simpa [Bind.bind, Except.bind] using h⟩

theorem extractMapSection_kept (i : Nat) (s : Node) (t1 t2 : String) (r : Option MapData)
    (hkeep : (sectionMapDiv s).isSome = true)
    (hok : extractMapSection i s t1 t2 = .ok r) :
    ∃ md, r = some md ∧ md.map_order = i + 1 := by
  unfold sectionMapDiv at hkeep
  unfold extractMapSection at hok
  cases hh : sectionHeaderDiv s with
  | none =>
    rw [hh] at hkeep
    simp at hkeep
  | some header =>
    rw [hh] at hkeep
    simp only [Option.some_bind] at hkeep
    cases hm : findTagClass "div" "map" header with
    | none =>
      rw [hm] at hkeep
      simp at hkeep
    | some mapInfo =>
      simp only [hh, hm] at hok
      obtain ⟨sw, hsw, hok2⟩ := except_bind_ok _ _ _ hok
      obtain ⟨p1, hp1, hok3⟩ := except_bind_ok _ _ _ hok2
      obtain ⟨p2, hp2, hok4⟩ := except_bind_ok _ _ _ hok3
      simp only [pure, Except.pure, Except.ok.injEq] at hok4
      exact ⟨_, hok4.symm, rfl⟩

theorem extractMapsList_orders (secs : List Node) (t1 t2 : String) :
    ∀ i l, (∀ sec ∈ secs, (sectionMapDiv sec).isSome = true) →
      extractMapsList i secs t1 t2 = .ok l →
      l.length = secs.length ∧
      ∀ k (hk : k < l.length), (l.get ⟨k, hk⟩).map_order = i + k + 1 := by
  induction secs with
  | nil =>
    intro i l _ hok
    simp only [extractMapsList, Except.ok.injEq] at hok
    subst hok
    simp
  | cons s rest ih =>
    intro i l hkeep hok
    simp only [extractMapsList] at hok
    obtain ⟨r, hr, hok2⟩ := except_bind_ok _ _ _ hok
    obtain ⟨tail, htail, hok3⟩ := except_bind_ok _ _ _ hok2
    obtain ⟨md, rfl, hord⟩ := extractMapSection_kept i s t1 t2 r (hkeep s (by simp)) hr
    simp only [pure, Except.pure, Except.ok.injEq] at hok3
    subst hok3
    obtain ⟨hlen, hords⟩ := ih (i + 1) tail (fun sec hs => hkeep sec (by simp [hs])) htail
    constructor
    · simp [hlen]
    · intro k hk
      cases k with
      | zero => simpa using hord
      | succ k =>
        have hk2 : k < tail.length := by simpa using hk
        have := hords k hk2
        simp only [List.get]
        rw [this]
        omega

/-- C9 (amended): when every selected per-map section has a header and a
map-info block (so no section is skipped), a successful extraction returns
one entry per section and the k-th entry carries order index k+1, matching
document order; the "all maps" section is excluded by the selector's
sentinel identifier. When a section is skipped, the enumeration index is
still consumed, so the returned orders keep the skipped section's gap and
no longer equal sequence position. -/
theorem c9_map_order_amended (soup : Node) (t1 t2 : String) (l : List MapData)
    (hkeep : ∀ sec ∈ mapSections soup, (sectionMapDiv sec).isSome = true)
    (hok : extract_maps_data soup t1 t2 = .ok l) :
    l.length = (mapSections soup).length ∧
    ∀ k (hk : k < l.length), (l.get ⟨k, hk⟩).map_order = k + 1 := by
  obtain ⟨hlen, ho⟩ := extractMapsList_orders (mapSections soup) t1 t2 0 l hkeep hok
  exact ⟨hlen, fun k hk => by simpa using ho k hk⟩

/-- C9 counterexample: with two selected sections of which the first lacks
a header, the returned sequence has one entry and its order index is 2,
not its sequence position 1. -/
theorem c9_counterexample :
    (mapSections c9skipDoc).length = 2 ∧
    (extract_maps_data c9skipDoc "T1" "T2").map (fun l => l.map (fun m => m.map_order)) =
      .ok [2] := by
  exact ⟨by decide, by decide⟩

/-- Witness for C9 (amended) on a document whose two sections are both
kept: orders are 1 and 2 at positions 0 and 1. -/
theorem c9_map_order_amended_witness :
    c9goodList.length = (mapSections c9goodDoc).length ∧
    (c9goodList.get ⟨0, by decide⟩).map_order = 0 + 1 ∧
    (c9goodList.get ⟨1, by decide⟩).map_order = 1 + 1 := by
  have h := c9_map_order_amended c9goodDoc "T1" "T2" c9goodList (by decide) (by decide)
  exact ⟨h.1, h.2 0 (by decide), h.2 1 (by decide)⟩

/-! ## Claim C6: failure surfacing -/

/-- C6 (amended): partial failures from missing nodes surface as sentinel
fields in a still-returned record - an empty document yields a record with
sentinel header fields, no maps and no overall stats; but an exception
inside a sub-parser (an unparsable per-map score text, a zero-cell player
row) aborts the entire parse: the catch-all handler converts any internal
exception into the distinguished empty result, which is distinct from the
record of a successfully parsed empty document. Aborts are therefore not
limited to document-level failures. -/
theorem c6_error_surface_amended :
    (∀ url now, get_match_details url (Node.elem "html" [] [] []) now =
       some { match_url := url, match_id := extract_match_id url, scraped_at := now,
              event_name := "N/A", event_stage := "N/A", date_utc := "N/A", patch := "N/A",
              team1_name := "N/A", team1_score_overall := 0,
              team2_name := "N/A", team2_score_overall := 0,
              match_format := "N/A", map_picks_bans_note := "N/A",
              maps := [], overall_t1 := [], overall_t2 := [] }) ∧
    (∀ url soup now e,
       extract_maps_data soup (effectiveTeamNames soup (extract_match_header_info soup)).1
         (effectiveTeamNames soup (extract_match_header_info soup)).2 = .error e →
       get_match_details url soup now = none) := by
  constructor
  · intro url now
    rfl
  · intro url soup now e hm
    simp only [get_match_details, build_match_data, hm, Bind.bind, Except.bind, Except.toOption]

/-- C6 counterexample: a document whose only malformed part is one map
section with an unparsable score text loses the entire match record - the
parse aborts to the empty result instead of returning a record with that
field sentineled. -/
theorem c6_counterexample :
    get_match_details "u" c6badDoc "t" = none ∧
    get_match_details "u" (Node.elem "html" [] [] []) "t" ≠ none := by
  exact ⟨by decide, by decide⟩

/-- Witness for C6 (amended): the empty document returns a populated
record, and the malformed-section document returns the empty result. -/
theorem c6_error_surface_amended_witness :
    get_match_details "u" (Node.elem "html" [] [] []) "t" ≠ none ∧
    get_match_details "u" c6badDoc "t" = none := by
  constructor
  · rw [c6_error_surface_amended.1 "u" "t"]
    simp
  · exact c6_error_surface_amended.2 "u" c6badDoc "t"
      "ValueError: invalid literal for int with base 10" (by decide)
